import Mathlib

/-!
Verification of the haystack-core-integrations repository fragment:
the Amazon Bedrock error hierarchy
(src/integrations/amazon_bedrock/src/haystack_integrations/common/amazon_bedrock/errors.py)
and the Chroma document-store adapter, whose implementation is not in the
source tree (only its tests are), so it is modelled from the specification.
-/

/-! ## Amazon Bedrock error hierarchy (embedded from errors.py) -/

/-- Python classes declared in errors.py, plus the builtin Exception root. -/
inductive PyClass where
  | exceptionCls
  | amazonBedrockError
  | awsConfigurationError
  | amazonBedrockConfigurationError
  | amazonBedrockInferenceError
deriving DecidableEq, Repr

/-- Direct superclass of each class, exactly as written in errors.py:
AmazonBedrockError extends Exception, and AWSConfigurationError,
AmazonBedrockConfigurationError, AmazonBedrockInferenceError all extend
AmazonBedrockError. -/
def PyClass.base : PyClass → Option PyClass
  | .exceptionCls => none
  | .amazonBedrockError => some .exceptionCls
  | .awsConfigurationError => some .amazonBedrockError
  | .amazonBedrockConfigurationError => some .amazonBedrockError
  | .amazonBedrockInferenceError => some .amazonBedrockError

/-- Fuelled walk up the superclass chain (the hierarchy has depth 2, fuel 4
is more than enough). -/
def subclassAux : Nat → PyClass → PyClass → Bool
  | 0, c, d => c == d
  | n + 1, c, d =>
      c == d ||
        (match c.base with
         | some b => subclassAux n b d
         | none => false)

/-- Python issubclass for the embedded hierarchy. -/
def PyClass.isSubclassOf (c d : PyClass) : Bool := subclassAux 4 c d

/-- Python except-clauses catch by isinstance: an exception of class `raised`
is caught by a handler for class `handler` exactly when `raised` is a subclass
of `handler`. -/
def catches (handler raised : PyClass) : Bool := raised.isSubclassOf handler

/-- Every error class the integration can raise. -/
def integrationErrorClasses : List PyClass :=
  [.amazonBedrockError, .awsConfigurationError,
   .amazonBedrockConfigurationError, .amazonBedrockInferenceError]

/-- Method names defined in the body of class AmazonBedrockError
(errors.py lines 1-8): the body holds only a docstring, so the list is
empty; in particular there is no init and no getattr hook. -/
def amazonBedrockErrorMethods : List String := []

/-- Whether class AmazonBedrockError defines the dynamic attribute hook
that Python consults when normal attribute lookup fails. -/
def amazonBedrockErrorDefinesGetattrHook : Bool :=
  amazonBedrockErrorMethods.contains "__getattr__"

/-- Attribute lookup in a plain attribute map (a Python instance dict). -/
def lookupAttr : List (String × String) → String → Option String
  | [], _ => none
  | (k, v) :: rest, name => if k = name then some v else lookupAttr rest name

/-- Python attribute lookup on an AmazonBedrockError instance that wraps an
original exception: first the instance dict of the wrapper is consulted;
when the attribute is not found there, Python falls back to the class
getattr hook, which would read the attribute off the wrapped exception --
but only if the class defines such a hook. Without it, the lookup fails
(Python raises AttributeError, modelled as none). -/
def getattrOnWrapper (wrapperAttrs wrappedAttrs : List (String × String))
    (name : String) : Option String :=
  match lookupAttr wrapperAttrs name with
  | some v => some v
  | none =>
      if amazonBedrockErrorDefinesGetattrHook then lookupAttr wrappedAttrs name
      else none

/-! ## Chroma document-store adapter

The ChromaDocumentStore implementation is not part of the provided source
tree; only its test suite is. The definitions below are therefore modelled
from the specification (spec.md sections 3, 4.2, 6, 7, 8), with shapes kept
consistent with the expectations of the tests in
src/integrations/chroma/tests/test_document_store.py. -/

/-- Modelled from the spec: a metadata value is either scalar
(string, number, boolean) or non-scalar (a nested mapping or a sequence).
Only the scalar/non-scalar distinction is ever inspected by the adapter, so
container payloads are kept flat. -/
inductive MetaVal where
  | str (s : String)
  | int (n : Int)
  | bool (b : Bool)
  | dict (entries : List (String × String))
  | arr (items : List String)
deriving DecidableEq, Repr

/-- Scalar metadata values are strings, numbers and booleans; nested
mappings and sequences are non-scalar. -/
def MetaVal.isScalar : MetaVal → Bool
  | .str _ => true
  | .int _ => true
  | .bool _ => true
  | .dict _ => false
  | .arr _ => false

/-- Modelled from the spec: a document is an identifier, textual content and
a mapping of metadata keys to values. -/
structure Doc where
  id : String
  content : String
  meta : List (String × MetaVal)
deriving DecidableEq, Repr

/-- Lookup of a metadata key in a document metadata mapping. -/
def metaLookup : List (String × MetaVal) → String → Option MetaVal
  | [], _ => none
  | (k, v) :: rest, key => if k = key then some v else metaLookup rest key

/-- Modelled from the spec: write sanitizes metadata by dropping non-scalar
values and keeping scalar ones. -/
def sanitizeMeta (m : List (String × MetaVal)) : List (String × MetaVal) :=
  m.filter (fun kv => kv.2.isScalar)

/-- Sanitization applied to a document: identifier and content untouched,
metadata filtered to its scalar entries. -/
def sanitizeDoc (d : Doc) : Doc :=
  { d with meta := sanitizeMeta d.meta }

/-- Insert-or-update of one (already sanitized) document by identifier. -/
def upsertOne (store : List Doc) (d : Doc) : List Doc :=
  if store.any (fun e => e.id == d.id) then
    store.map (fun e => if e.id == d.id then d else e)
  else store ++ [d]

/-- Modelled from the spec: write sanitizes each document metadata
(drops non-scalar values) and forwards the documents to the client
insert/upsert call. -/
def write_documents (store : List Doc) (docs : List Doc) : List Doc :=
  docs.foldl (fun s d => upsertOne s (sanitizeDoc d)) store

/-- Errors an adapter operation can surface: a pass-through client
ValueError (propagated as-is), or an error wrapped in the adapter
exception hierarchy. -/
inductive StoreError where
  | valueError (msg : String)
  | wrappedError (msg : String)
deriving DecidableEq, Repr

/-- Modelled from the spec: delete forwards identifiers to the client
delete call and must not fail when an identifier does not exist; not-found
conditions on delete are explicitly not errors. -/
def delete_documents (store : List Doc) (ids : List String) :
    Except StoreError (List Doc) :=
  .ok (store.filter (fun d => !(ids.contains d.id)))

/-- Modelled from the spec: a not-equals filter on a metadata field treats a
document from which the field is absent as matching (field considered
not-equal when missing). -/
def matchesNe (d : Doc) (field : String) (v : MetaVal) : Bool :=
  match metaLookup d.meta field with
  | none => true
  | some w => decide (w ≠ v)

/-- filter_documents restricted to a single not-equals leaf filter. -/
def filter_documents_ne (store : List Doc) (field : String) (v : MetaVal) :
    List Doc :=
  store.filter (fun d => matchesNe d field v)

/-- filter_documents restricted to a filter on the document identifier. -/
def filter_documents_by_id (store : List Doc) (i : String) : List Doc :=
  store.filter (fun d => d.id == i)

/-! ## Collection initialization -/

/-- A vector-database collection: a name and its metadata, including the
distance metric under the key "hnsw:space". -/
structure Collection where
  name : String
  metadata : List (String × MetaVal)
deriving DecidableEq, Repr

/-- The collections the client library currently holds, keyed by name. -/
abbrev Registry := List Collection

/-- Lookup of a collection by name. -/
def findCollection (reg : Registry) (name : String) : Option Collection :=
  reg.find? (fun c => c.name == name)

/-- Distance functions the client library accepts for "hnsw:space". -/
def validDistanceFunctions : List String := ["l2", "ip", "cosine"]

/-- Result of constructing a store adapter: the updated registry, the
collection the adapter is bound to, and whether the already-exists warning
was emitted. -/
structure InitResult where
  registry : Registry
  collection : Collection
  warned : Bool
deriving DecidableEq, Repr

/-- The collection metadata that initialization uses: the metadata argument
when one is given, otherwise a mapping carrying the distance metric under
the key "hnsw:space". -/
def effectiveMetadata (distance_function : String)
    (metadata : Option (List (String × MetaVal))) : List (String × MetaVal) :=
  match metadata with
  | some m => m
  | none => [("hnsw:space", MetaVal.str distance_function)]

/-- Modelled from the spec: ChromaDocumentStore initialization. It accepts a
collection name, a distance metric and optional extra metadata. When a
collection with that name already exists, the distance-metric and metadata
arguments are ignored and a warning is emitted instead of failing. Otherwise
the collection is created with the given metadata (defaulting to a mapping
carrying the distance metric under "hnsw:space"); an invalid distance metric
makes the client library raise a ValueError that propagates as-is, not
wrapped. -/
def chromaInit (reg : Registry) (name : String) (distance_function : String)
    (metadata : Option (List (String × MetaVal))) :
    Except StoreError InitResult :=
  match findCollection reg name with
  | some c => .ok ⟨reg, c, true⟩
  | none =>
      match metaLookup (effectiveMetadata distance_function metadata) "hnsw:space" with
      | some (MetaVal.str space) =>
          if validDistanceFunctions.contains space then
            .ok ⟨reg ++ [⟨name, effectiveMetadata distance_function metadata⟩],
                 ⟨name, effectiveMetadata distance_function metadata⟩, false⟩
          else .error (.valueError space)
      | _ => .error (.valueError "hnsw:space")

/-! ## Adapter configuration serialization -/

/-- A value in the plain key-value representation of the adapter
configuration: a string or the Python None. -/
inductive ConfigVal where
  | str (s : String)
  | nil
deriving DecidableEq, Repr

/-- Encode an optional string configuration field. -/
def optConfigVal : Option String → ConfigVal
  | some s => .str s
  | none => .nil

/-- Decode an optional string configuration field. -/
def configValToOpt : ConfigVal → Option String
  | .str s => some s
  | .nil => none

/-- Modelled from the spec: the adapter configuration parameters that
round-trip through serialization (collection name, embedding-function
identifier, persistence path, credentials, distance function). -/
structure ChromaDocumentStore where
  collection_name : String
  embedding_function : String
  persist_path : Option String
  api_key : Option String
  distance_function : String
deriving DecidableEq, Repr

/-- Modelled from the spec: to_dict exports the adapter configuration to a
plain key-value representation. -/
def to_dict (c : ChromaDocumentStore) : List (String × ConfigVal) :=
  [("collection_name", .str c.collection_name),
   ("embedding_function", .str c.embedding_function),
   ("persist_path", optConfigVal c.persist_path),
   ("api_key", optConfigVal c.api_key),
   ("distance_function", .str c.distance_function)]

/-- Lookup in the key-value representation. -/
def dictLookup : List (String × ConfigVal) → String → Option ConfigVal
  | [], _ => none
  | (k, v) :: rest, key => if k = key then some v else dictLookup rest key

/-- Modelled from the spec: from_dict reconstructs an adapter from the plain
key-value representation, failing when a mandatory string field is missing
or has the wrong shape. -/
def from_dict (d : List (String × ConfigVal)) : Option ChromaDocumentStore :=
  match dictLookup d "collection_name" with
  | some (.str name) =>
      match dictLookup d "embedding_function" with
      | some (.str fn) =>
          match dictLookup d "distance_function" with
          | some (.str dist) =>
              match dictLookup d "persist_path", dictLookup d "api_key" with
              | some pp, some key =>
                  some ⟨name, fn, configValToOpt pp, configValToOpt key, dist⟩
              | _, _ => none
          | _ => none
      | _ => none
  | _ => none

/-! ## Helper lemmas -/

theorem sanitizeDoc_id (d : Doc) : (sanitizeDoc d).id = d.id := rfl

theorem sanitizeDoc_content (d : Doc) : (sanitizeDoc d).content = d.content := rfl

/-- Writing documents whose identifiers are fresh for the store and pairwise
distinct appends their sanitized forms. -/
theorem write_documents_fresh (docs : List Doc) (store : List Doc)
    (hfresh : ∀ d ∈ docs, ∀ e ∈ store, e.id ≠ d.id)
    (hnodup : (docs.map Doc.id).Nodup) :
    write_documents store docs = store ++ docs.map sanitizeDoc := by
  induction docs generalizing store with
  | nil => simp [write_documents]
  | cons d ds ih =>
      have hne : store.any (fun e => e.id == (sanitizeDoc d).id) = false := by
        rw [List.any_eq_false]
        intro e he
        simp only [sanitizeDoc_id, beq_iff_eq]
        exact hfresh d (by simp) e he
      have hstep : write_documents store (d :: ds) =
          write_documents (store ++ [sanitizeDoc d]) ds := by
        simp only [write_documents, List.foldl_cons, upsertOne, hne,
          Bool.false_eq_true, if_false]
      rw [hstep, ih (store ++ [sanitizeDoc d])]
      · simp
      · intro d' hd' e he
        rcases List.mem_append.mp he with hs | hsingle
        · exact hfresh d' (by simp [hd']) e hs
        · have hde : e = sanitizeDoc d := by simpa using hsingle
          subst hde
          rw [sanitizeDoc_id]
          intro hcontra
          have : d.id ∈ ds.map Doc.id := List.mem_map.mpr ⟨d', hd', hcontra.symm⟩
          exact (List.nodup_cons.mp (by simpa using hnodup)).1 this
      · exact (List.nodup_cons.mp (by simpa using hnodup)).2

/-- A freshly created collection is found afterwards. -/
theorem findCollection_append_self (reg : Registry) (name : String)
    (m : List (String × MetaVal)) (hf : findCollection reg name = none) :
    findCollection (reg ++ [⟨name, m⟩]) name = some ⟨name, m⟩ := by
  unfold findCollection at hf ⊢
  rw [List.find?_append, hf]
  simp

/-! ## Claim theorems -/

/-- C8: the error taxonomy is a hierarchy: AWSConfigurationError,
AmazonBedrockConfigurationError and AmazonBedrockInferenceError are all
subtypes of the common base AmazonBedrockError, and a handler catching the
base catches every error class of the integration. -/
theorem bedrock_error_hierarchy :
    PyClass.awsConfigurationError.isSubclassOf .amazonBedrockError = true ∧
    PyClass.amazonBedrockConfigurationError.isSubclassOf .amazonBedrockError = true ∧
    PyClass.amazonBedrockInferenceError.isSubclassOf .amazonBedrockError = true ∧
    integrationErrorClasses.all (catches .amazonBedrockError) = true := by
  decide

/-- C1 (failing input): the docstring of AmazonBedrockError promises that the
attributes of the wrapped exception are readable directly off the wrapper,
but the class body defines no getattr hook; evaluating attribute lookup at a
wrapper with an empty instance dict wrapping an exception whose message
attribute is set gives none, although the wrapped exception does carry the
attribute. -/
theorem amazonBedrockError_attribute_lookup_fails :
    getattrOnWrapper [] [("message", "boto3 client error")] "message" = none ∧
    lookupAttr [("message", "boto3 client error")] "message" =
      some "boto3 client error" ∧
    amazonBedrockErrorDefinesGetattrHook = false :=
  ⟨rfl, rfl, rfl⟩

/-- C4: delete_documents never signals an error, on any store (empty or not)
and for any list of identifiers, whether or not they exist in the store. -/
theorem delete_documents_never_fails (store : List Doc) (ids : List String) :
    ∃ remaining, delete_documents store ids = Except.ok remaining :=
  ⟨store.filter (fun d => !(ids.contains d.id)), rfl⟩

/-- C3: a not-equals filter returns exactly the stored documents whose
metadata either lacks the field or maps it to a value different from the
compared one; in particular a document from which the field is absent
matches. -/
theorem ne_filter_missing_field_matches (store : List Doc) (field : String)
    (v : MetaVal) (d : Doc) :
    d ∈ filter_documents_ne store field v ↔
      d ∈ store ∧ (metaLookup d.meta field = none ∨
        ∃ w, metaLookup d.meta field = some w ∧ w ≠ v) := by
  unfold filter_documents_ne matchesNe
  rw [List.mem_filter]
  cases h : metaLookup d.meta field with
  | none => simp [h]
  | some w => simp [h]

/-- The three documents written by the metadata-sanitization test: one whose
only metadata value is a nested mapping, one whose only metadata value is a
sequence, one whose only metadata value is a scalar number. -/
def sampleDocs : List Doc :=
  [⟨"id1", "test doc 1", [("invalid", MetaVal.dict [("dict", "value")])]⟩,
   ⟨"id2", "test doc 2", [("invalid", MetaVal.arr ["list", "value"])]⟩,
   ⟨"id3", "test doc 3", [("ok", MetaVal.int 123)]⟩]

/-- C2: writing documents persists exactly the scalar metadata values: every
stored document carries the scalar entries of its metadata unchanged and
none of the non-scalar ones; a document with only non-scalar metadata is
stored with empty metadata and a document with only scalar metadata keeps it
intact. -/
theorem write_documents_sanitizes_exactly (docs : List Doc)
    (hnodup : (docs.map Doc.id).Nodup) :
    write_documents [] docs = docs.map sanitizeDoc ∧
    ∀ d ∈ docs,
      (sanitizeDoc d).meta = d.meta.filter (fun kv => kv.2.isScalar) ∧
      ((∀ kv ∈ d.meta, kv.2.isScalar = false) → (sanitizeDoc d).meta = []) ∧
      ((∀ kv ∈ d.meta, kv.2.isScalar = true) → (sanitizeDoc d).meta = d.meta) := by
  refine ⟨?_, ?_⟩
  · have := write_documents_fresh docs [] (by simp) hnodup
    simpa using this
  · intro d _
    refine ⟨rfl, ?_, ?_⟩
    · intro hall
      show sanitizeMeta d.meta = []
      unfold sanitizeMeta
      rw [List.filter_eq_nil_iff]
      intro kv hkv
      simp [hall kv hkv]
    · intro hall
      show sanitizeMeta d.meta = d.meta
      unfold sanitizeMeta
      rw [List.filter_eq_self]
      intro kv hkv
      simp [hall kv hkv]

/-- C2 witness: the no-duplicate-identifier hypothesis holds for the three
test documents, and writing them to an empty store yields their sanitized
forms. -/
theorem write_documents_sanitizes_exactly_witness :
    (sampleDocs.map Doc.id).Nodup ∧
    write_documents [] sampleDocs = sampleDocs.map sanitizeDoc :=
  ⟨by decide, (write_documents_sanitizes_exactly sampleDocs (by decide)).1⟩

/-- C10: metadata sanitization on write touches only metadata: the stored
documents keep their identifiers and textual contents, and their number
equals the number of documents written. -/
theorem write_documents_preserves_id_content_count (docs : List Doc)
    (hnodup : (docs.map Doc.id).Nodup) :
    (write_documents [] docs).map Doc.id = docs.map Doc.id ∧
    (write_documents [] docs).map Doc.content = docs.map Doc.content ∧
    (write_documents [] docs).length = docs.length := by
  have hw : write_documents [] docs = docs.map sanitizeDoc := by
    simpa using write_documents_fresh docs [] (by simp) hnodup
  rw [hw]
  refine ⟨?_, ?_, by simp⟩
  · rw [List.map_map]
    exact List.map_congr_left (fun d _ => sanitizeDoc_id d)
  · rw [List.map_map]
    exact List.map_congr_left (fun d _ => sanitizeDoc_content d)

/-- C10 witness: at the three test documents, the hypothesis holds and the
stored identifiers are exactly the written ones. -/
theorem write_documents_preserves_id_content_count_witness :
    (sampleDocs.map Doc.id).Nodup ∧
    (write_documents [] sampleDocs).map Doc.id = sampleDocs.map Doc.id :=
  ⟨by decide, (write_documents_preserves_id_content_count sampleDocs (by decide)).1⟩

/-- C9: deleting identifiers none of which occur in the store leaves the
store exactly as it was, and every previously written document is still
returned by an identifier filter afterwards. -/
theorem delete_nonexisting_preserves_store (store : List Doc)
    (ids : List String)
    (h : store.all (fun d => !(ids.contains d.id)) = true) :
    delete_documents store ids = Except.ok store ∧
    ∀ d ∈ store, d ∈ filter_documents_by_id store d.id := by
  constructor
  · unfold delete_documents
    congr 1
    rw [List.filter_eq_self]
    intro d hd
    exact (List.all_eq_true.mp h) d hd
  · intro d hd
    unfold filter_documents_by_id
    rw [List.mem_filter]
    exact ⟨hd, by simp⟩

/-- The store and identifier list of the delete-nonexisting test: one stored
document and one identifier absent from the store. -/
def deleteSampleStore : List Doc := [⟨"doc-1", "test doc", []⟩]

/-- The identifiers passed to delete in the delete-nonexisting test. -/
def deleteSampleIds : List String := ["non_existing"]

/-- C9 witness: at the test store and identifiers, the hypothesis holds and
delete returns the store unchanged. -/
theorem delete_nonexisting_preserves_store_witness :
    deleteSampleStore.all (fun d => !(deleteSampleIds.contains d.id)) = true ∧
    delete_documents deleteSampleStore deleteSampleIds =
      Except.ok deleteSampleStore :=
  ⟨by decide,
   (delete_nonexisting_preserves_store deleteSampleStore deleteSampleIds
     (by decide)).1⟩

/-- C5: when the collection name is already bound, constructing a store
adapter again succeeds with different distance-function or metadata
arguments: the first construction creates the collection without warning,
the second one (whatever its arguments) emits the already-exists warning,
leaves the registry untouched, and binds the new adapter to the very
collection the first adapter observes, metadata and distance metric
included. -/
theorem reinit_existing_collection_preserves (reg : Registry)
    (name df0 df1 space : String)
    (md0 md1 : Option (List (String × MetaVal))) (m : List (String × MetaVal))
    (hf : findCollection reg name = none)
    (hmd : effectiveMetadata df0 md0 = m)
    (hspace : metaLookup m "hnsw:space" = some (MetaVal.str space))
    (hvalid : validDistanceFunctions.contains space = true) :
    chromaInit reg name df0 md0 =
      Except.ok ⟨reg ++ [⟨name, m⟩], ⟨name, m⟩, false⟩ ∧
    chromaInit (reg ++ [⟨name, m⟩]) name df1 md1 =
      Except.ok ⟨reg ++ [⟨name, m⟩], ⟨name, m⟩, true⟩ := by
  have hmem : space ∈ validDistanceFunctions := by simpa using hvalid
  constructor
  · simp [chromaInit, hf, hmd, hspace, hmem]
  · simp [chromaInit, findCollection_append_self reg name m hf]

/-- The collection metadata created by the re-initialization scenario: the
cosine distance metric recorded under "hnsw:space". -/
def reinitMeta : List (String × MetaVal) := [("hnsw:space", MetaVal.str "cosine")]

/-- C5 witness: at the concrete re-initialization scenario (fresh registry,
collection created with cosine, re-created with ip) all hypotheses hold and
the first construction creates the cosine collection without warning. -/
theorem reinit_existing_collection_preserves_witness :
    findCollection [] "test-4" = none ∧
    effectiveMetadata "cosine" none = reinitMeta ∧
    metaLookup reinitMeta "hnsw:space" = some (MetaVal.str "cosine") ∧
    validDistanceFunctions.contains "cosine" = true ∧
    chromaInit [] "test-4" "cosine" none =
      Except.ok ⟨[⟨"test-4", reinitMeta⟩], ⟨"test-4", reinitMeta⟩, false⟩ :=
  ⟨rfl, rfl, by decide, by decide,
   (reinit_existing_collection_preserves [] "test-4" "cosine" "ip" "cosine"
     none none reinitMeta rfl rfl (by decide) (by decide)).1⟩

/-- C7: an invalid distance metric given at initialization of a fresh
collection surfaces as the client library ValueError, propagated as-is and
never as a wrapped adapter error, while the valid metric cosine is accepted
and recorded in the collection metadata under "hnsw:space". -/
theorem invalid_distance_metric_passthrough (reg : Registry) (name df : String)
    (hf : findCollection reg name = none)
    (hd : validDistanceFunctions.contains df = false) :
    chromaInit reg name df none = Except.error (StoreError.valueError df) ∧
    (∀ msg, chromaInit reg name df none ≠
      Except.error (StoreError.wrappedError msg)) ∧
    chromaInit reg name "cosine" none =
      Except.ok ⟨reg ++ [⟨name, [("hnsw:space", MetaVal.str "cosine")]⟩],
                 ⟨name, [("hnsw:space", MetaVal.str "cosine")]⟩, false⟩ ∧
    metaLookup [("hnsw:space", MetaVal.str "cosine")] "hnsw:space" =
      some (MetaVal.str "cosine") := by
  have hnmem : df ∉ validDistanceFunctions := by simpa using hd
  have h1 : chromaInit reg name df none =
      Except.error (StoreError.valueError df) := by
    simp [chromaInit, hf, effectiveMetadata, metaLookup, hnmem]
  refine ⟨h1, ?_, ?_, rfl⟩
  · intro msg
    rw [h1]
    intro hcontra
    simp at hcontra
  · simp [chromaInit, hf, effectiveMetadata, metaLookup, validDistanceFunctions]

/-- C7 witness: at a fresh registry and the invalid metric of the test, both
hypotheses hold and initialization surfaces the pass-through ValueError. -/
theorem invalid_distance_metric_passthrough_witness :
    findCollection [] "test-3" = none ∧
    validDistanceFunctions.contains "jaccard" = false ∧
    chromaInit [] "test-3" "jaccard" none =
      Except.error (StoreError.valueError "jaccard") :=
  ⟨rfl, by decide,
   (invalid_distance_metric_passthrough [] "test-3" "jaccard" rfl (by decide)).1⟩

/-- C6: exporting the adapter configuration with to_dict and reconstructing
with from_dict recovers every parameter: collection name, embedding-function
identifier, persistence path, credentials and distance function round-trip
through the plain key-value representation. -/
theorem config_roundtrip (c : ChromaDocumentStore) :
    from_dict (to_dict c) = some c := by
  cases c with
  | mk name fn pp key dist => cases pp <;> cases key <;> rfl
